import Mathlib

/-!
Verification of the playlist tree model of `src/wxApplication/UIElements/Playlist/Playlist.cpp`.

The store is a two-level tree: a list of song trees, each a root node with a
list of subsong nodes.  C++ pointer identity is modelled by a `Nat` id carried
by every node; the store hands out fresh ids from `nextId`, so ids of nodes
obtained from the store are unique.  The wx GUI control (columns, expansion,
notifications, scrolling) is outside the model; only the entry collection, the
active-item reference, tags, icon ids and the visual attribute payload are
kept, exactly as `Playlist.cpp` mutates them.
-/

namespace Playlist

/-- ROM requirement classification of an entry (`PlaylistTreeModelNode::RomRequirement`). -/
inductive RomRequirement where
  | None
  | BasicRom
  | OtherRom
deriving DecidableEq, Repr

/-- Status tag of an entry (`PlaylistTreeModelNode::ItemTag`). -/
inductive ItemTag where
  | Normal
  | ShortDuration
  | Blacklisted
deriving DecidableEq, Repr

/-- Song (root) or subsong (child) node (`PlaylistTreeModelNode::ItemType`). -/
inductive ItemType where
  | Song
  | Subsong
deriving DecidableEq, Repr

/-- Icon identifiers used by `Playlist.cpp` (`PlaylistIconId`). -/
inductive PlaylistIconId where
  | NoIcon
  | DefaultSubsongIndicator
  | ChipIcon
  | SkipShort
  | RemoveSong
deriving DecidableEq, Repr

/-- Visual-state payload of an entry (the `wxDataViewItemAttr`): bold flag,
optional colour, strikethrough flag.  Colours are kept as opaque strings. -/
structure ItemAttr where
  bold : Bool := false
  colour : Option String := none
  strikethrough : Bool := false
deriving DecidableEq, Repr

/-- One `PlaylistTreeModelNode`.  `id` models C++ pointer identity (the store
assigns fresh ids).  For a subsong the `defaultSubsong` field holds its 1-based
subsong index, exactly as in the source, where `AddSubsongs` passes the counter
`cnt` in the constructor's `defaultSubsong` slot and the traversal code reads
`fromSubsong.defaultSubsong` as the index. -/
structure Node where
  id : Nat
  type : ItemType
  title : String
  filepath : String
  defaultSubsong : Int
  duration : Nat
  author : String
  romRequirement : RomRequirement
  playableFlag : Bool
  tag : ItemTag := ItemTag.Normal
  iconId : PlaylistIconId := PlaylistIconId.NoIcon
  attr : ItemAttr := {}
deriving DecidableEq, Repr

/-- A root song node together with its owned subsong nodes (the node plus its
`GetChildren()` collection). -/
structure SongTree where
  node : Node
  children : List Node
deriving DecidableEq, Repr

/-- The whole playlist model state: `_model.entries`, the `_activeItem`
reference (as the id of the active node), the single configuration option
read by `GetEffectiveInitialSubsong`
(`AppSettings::ID::RepeatModeDefaultSubsong`), and the fresh-id counter that
models allocation of new nodes. -/
structure PlaylistState where
  entries : List SongTree
  activeId : Option Nat
  preferDefaultSubsong : Bool
  nextId : Nat
deriving DecidableEq, Repr

/-- Modelled from the spec: `PlaylistTreeModelNode::IsPlayable` is not under
src/ (only `Playlist.cpp` is); per the spec an entry is playable iff its
explicit playable flag is true and its tag is not Blacklisted. -/
def IsPlayable (n : Node) : Bool :=
  n.playableFlag && !(n.tag == ItemTag.Blacklisted)

/-- Modelled from the spec: `PlaylistTreeModelNode::IsAutoPlayable` is not
under src/; per the spec, auto-playable = playable and not tagged
ShortDuration. -/
def IsAutoPlayable (n : Node) : Bool :=
  IsPlayable n && !(n.tag == ItemTag.ShortDuration)

/-- Modelled from the spec: `PlaylistTreeModelNode::GetSubsong` is not under
src/; it resolves a 1-based subsong index to the child with that index, and
per the spec it can yield null for an out-of-range index ("preserve the
null-propagates-safely behavior"). -/
def GetSubsong (t : SongTree) (i : Int) : Option Node :=
  t.children.find? (fun c => c.defaultSubsong == i)

/-- Modelled from the spec: `Strings::PlaylistTree::SUBSONG` lives in
`UIStrings.h`, which is not under src/; the spec derives subsong titles as
"<parent title>: Subsong <n>", so the word is "Subsong". -/
def SUBSONG : String := "Subsong"

/-- The title `AddSubsongs` gives the `cnt`-th created subsong:
wxString::Format("  %s: %s %i", parent.title, SUBSONG, cnt).  Note the two
leading indentation spaces in the source's format string. -/
def subsongTitle (parentTitle : String) (cnt : Nat) : String :=
  "  " ++ parentTitle ++ ": " ++ SUBSONG ++ " " ++ toString cnt

/-- `Playlist::AddMainSong`: appends a fresh song node (no children yet) at the
end of `_model.entries` and returns it.  GUI notification and the author
column refresh have no model state. -/
def AddMainSong (st : PlaylistState) (title filepath : String) (defaultSubsong : Int)
    (duration : Nat) (author : String) (rom : RomRequirement) (playable : Bool) :
    PlaylistState × Node :=
  let n : Node :=
    { id := st.nextId, type := ItemType.Song, title := title, filepath := filepath,
      defaultSubsong := defaultSubsong, duration := duration, author := author,
      romRequirement := rom, playableFlag := playable }
  ({ st with entries := st.entries ++ [{ node := n, children := [] }],
             nextId := st.nextId + 1 }, n)

/-- The batch of child nodes `Playlist::AddSubsongs` creates for `parent`, one
per duration, with the counter `cnt` pre-incremented before each creation (so
the first child gets index 1).  Each child inherits the parent's filepath, ROM
requirement and `parent.IsPlayable()`, has empty author, and gets the
default-subsong indicator icon when `parent.defaultSubsong == cnt`. -/
def buildSubsongs (parent : Node) (durations : List Nat) (cnt : Nat) (nid : Nat) :
    List Node :=
  match durations with
  | [] => []
  | d :: rest =>
    let child : Node :=
      { id := nid, type := ItemType.Subsong, title := subsongTitle parent.title cnt,
        filepath := parent.filepath, defaultSubsong := (cnt : Int), duration := d,
        author := "", romRequirement := parent.romRequirement,
        playableFlag := IsPlayable parent,
        iconId := if parent.defaultSubsong == (cnt : Int) then
            PlaylistIconId.DefaultSubsongIndicator
          else PlaylistIconId.NoIcon }
    child :: buildSubsongs parent rest (cnt + 1) (nid + 1)

/-- `Playlist::AddSubsongs`: no-op on an empty duration list, otherwise appends
the created batch to the parent's child collection (the parent is addressed by
identity). -/
def AddSubsongs (st : PlaylistState) (durations : List Nat) (parentId : Nat) :
    PlaylistState :=
  if durations.length == 0 then st
  else
    { st with
      entries := st.entries.map (fun t =>
        if t.node.id == parentId then
          { t with children := t.children ++ buildSubsongs t.node durations 1 st.nextId }
        else t),
      nextId := st.nextId + durations.length }

/-- Look a node up by identity inside one song tree: the root itself or one of
its children. -/
def findNodeInTree (t : SongTree) (i : Nat) : Option Node :=
  if t.node.id == i then some t.node else t.children.find? (fun c => c.id == i)

/-- Look a node up by identity across a store's entries. -/
def findNodeById (entries : List SongTree) (i : Nat) : Option Node :=
  entries.findSome? (fun t => findNodeInTree t i)

/-- `Playlist::GetActiveSong`: the node `_activeItem` refers to, or null.  The
C++ stores the pointer itself; the model stores the id and resolves it in the
store (the same object as long as the entry is present). -/
def GetActiveSong (st : PlaylistState) : Option Node :=
  match st.activeId with
  | none => none
  | some i => findNodeById st.entries i

/-- The `std::find_if` + `erase` of `Playlist::Remove` on `_model.entries`:
removes the first root song tree whose root node is the given item (by
identity); a subsong's identity never matches a root, so nothing is erased
for it. -/
def eraseFirstById : List SongTree → Nat → List SongTree
  | [], _ => []
  | t :: rest, i => if t.node.id == i then rest else t :: eraseFirstById rest i

/-- `Playlist::Remove`: clears the active reference when an active song exists
and its filepath equals the removed item's filepath, then erases the item from
the root collection (only there - the source never erases from a parent's
child collection). -/
def Remove (st : PlaylistState) (item : Node) : PlaylistState :=
  let st1 :=
    match GetActiveSong st with
    | some a => if a.filepath == item.filepath then { st with activeId := none } else st
    | none => st
  { st1 with entries := eraseFirstById st1.entries item.id }

/-- `Playlist::Clear`: unsets the active item and clears all entries. -/
def Clear (st : PlaylistState) : PlaylistState :=
  { st with activeId := none, entries := [] }

/-- The pure hide predicate computed by
`Playlist::RefreshAuthorColumnVisibility` (and returned by it): true, unless
more than one song exists and not every song's author equals the first
song's author. -/
def RefreshAuthorColumnVisibility (entries : List SongTree) : Bool :=
  match entries with
  | [] => true
  | e :: rest =>
    if (e :: rest).length > 1 then
      (e :: rest).all (fun t => t.node.author == e.node.author)
    else true

/-- The `std::find_if` scan of `GetEffectiveInitialSubsong` over the song's
children: the first auto-playable subsong in collection order. -/
def firstAutoPlayableChild (t : SongTree) : Option Node :=
  t.children.find? (fun c => IsAutoPlayable c)

/-- `Playlist::GetEffectiveInitialSubsong`: with no subsongs, the song itself
when auto-playable, else null; otherwise the subsong at the preferred start
index (the song's default subsong when the RepeatModeDefaultSubsong option is
on, else 1) when it exists and is auto-playable, else the first auto-playable
subsong, else null. -/
def GetEffectiveInitialSubsong (pref : Bool) (t : SongTree) : Option Node :=
  if t.children.length == 0 then
    if IsAutoPlayable t.node then some t.node else none
  else
    let preferredStartSubsong : Int := if pref then t.node.defaultSubsong else 1
    match GetSubsong t preferredStartSubsong with
    | some s => if IsAutoPlayable s then some s else firstAutoPlayableChild t
    | none => firstAutoPlayableChild t

/-- `Playlist::GetSong`: the first root song whose filepath equals the given
one (first match; duplicates permitted), with its children. -/
def GetSong (st : PlaylistState) (filepath : String) : Option SongTree :=
  st.entries.find? (fun t => t.node.filepath == filepath)

/-- The position the `std::find_if` of `GetNextSong`/`GetPrevSong` stops at:
the index of the first root song whose filepath equals `p`, or none. -/
def songIdx : List SongTree → String → Option Nat
  | [], _ => none
  | t :: rest, p =>
    if t.node.filepath == p then some 0
    else (songIdx rest p).map (fun k => k + 1)

/-- `Playlist::GetNextSong(fromSong)`.  The C++ recursion carries no fuel; the
model makes the recursion depth explicit: `none` means the recursion has not
produced a result within `fuel` unfoldings of the source's body, `some r`
means the source returns `r` (null or a node).  Each unfolding is exactly one
invocation of the C++ function body: locate `fromSong` by first-match
filepath; null when absent or last; else the immediately following song's
effective initial subsong when that song is auto-playable, else recurse on
it. -/
def GetNextSong (st : PlaylistState) : Nat → Node → Option (Option Node)
  | 0, _ => none
  | fuel + 1, fromSong =>
    match songIdx st.entries fromSong.filepath with
    | none => some none
    | some i =>
      match st.entries[i + 1]? with
      | none => some none
      | some nextTree =>
        if IsAutoPlayable nextTree.node then
          some (GetEffectiveInitialSubsong st.preferDefaultSubsong nextTree)
        else GetNextSong st fuel nextTree.node

/-- `Playlist::GetPrevSong(fromSong)`, fuel-indexed like `GetNextSong`: null
when `fromSong` is absent or first; else the immediately preceding song's
effective initial subsong when auto-playable, else recurse on it.  The
`none` inner branch for `entries[j]?` is unreachable (j precedes a valid
index). -/
def GetPrevSong (st : PlaylistState) : Nat → Node → Option (Option Node)
  | 0, _ => none
  | fuel + 1, fromSong =>
    match songIdx st.entries fromSong.filepath with
    | none => some none
    | some 0 => some none
    | some (j + 1) =>
      match st.entries[j]? with
      | none => some none
      | some prevTree =>
        if IsAutoPlayable prevTree.node then
          some (GetEffectiveInitialSubsong st.preferDefaultSubsong prevTree)
        else GetPrevSong st fuel prevTree.node

/-- `PlaylistTreeModelNode::ResetItemAttr`: reset the visual payload. -/
def ResetItemAttr (n : Node) : Node := { n with attr := {} }

/-- Apply `f` to the in-store node with identity `i` (wherever it lives),
modelling a mutation through a C++ reference to that node. -/
def updateNode (st : PlaylistState) (i : Nat) (f : Node → Node) : PlaylistState :=
  { st with entries := st.entries.map (fun t =>
      { node := if t.node.id == i then f t.node else t.node,
        children := t.children.map (fun c => if c.id == i then f c else c) }) }

/-- Modelled from the spec: `PlaylistTreeModelNode::GetParent` is not under
src/; a subsong carries a non-owning back-reference to its owning song, which
in the store is the root of the tree whose child collection holds the node. -/
def findParentSong (entries : List SongTree) (child : Node) : Option Node :=
  (entries.find? (fun t => t.children.any (fun c => c.id == child.id))).map
    (fun t => t.node)

/-- Stand-in for the highlight colour `wxSYS_COLOUR_HOTLIGHT` the source sets
on the active subsong's parent. -/
def hotlightColour : String := "wxSYS_COLOUR_HOTLIGHT"

/-- `Playlist::TrySetActiveSong`: false and no change when the node is not
playable; otherwise reset the outgoing active node's attributes (and its
parent's), store the new node as active, set it bold, and for a subsong set
its parent bold and coloured.  The collapse/expand calls driven by
`autoexpand` only touch the wx control's expansion state, which is outside
the model. -/
def TrySetActiveSong (st : PlaylistState) (node : Node) (autoexpand : Bool) :
    Bool × PlaylistState :=
  if !(IsPlayable node) then (false, st)
  else
    let st1 :=
      match GetActiveSong st with
      | some oldNode =>
        let stA := updateNode st oldNode.id ResetItemAttr
        match findParentSong stA.entries oldNode with
        | some p => updateNode stA p.id ResetItemAttr
        | none => stA
      | none => st
    let st2 := { st1 with activeId := some node.id }
    let st3 := updateNode st2 node.id
      (fun n => { n with attr := { n.attr with bold := true } })
    let st4 :=
      if node.type == ItemType.Subsong then
        match findParentSong st3.entries node with
        | some p => updateNode st3 p.id (fun n =>
            { n with attr := { n.attr with bold := true, colour := some hotlightColour } })
        | none => st3
      else st3
    (true, st4)

/-- Colour-plus-strikethrough marking applied to ROM-gated unplayable entries
and their subsongs in `SetItemTag`'s Normal branch. -/
def setColourStrike (col : String) (n : Node) : Node :=
  { n with attr := { n.attr with colour := some col, strikethrough := true } }

/-- `Playlist::SetItemTag`: without `force` a non-playable node is left
entirely alone; otherwise the tag is set (and on `force` the visual payload
reset), then the icon and styling are resolved per tag exactly as in the
source's switch.  `node.IsPlayable()` read after `SetTag` sees the new tag,
hence `taggedNode`. -/
def SetItemTag (st : PlaylistState) (node : Node) (tag : ItemTag) (force : Bool) :
    PlaylistState :=
  if !force && !(IsPlayable node) then st
  else
    let taggedNode : Node := { node with tag := tag }
    let st1 := updateNode st node.id (fun n => { n with tag := tag })
    let st2 := if force then updateNode st1 node.id ResetItemAttr else st1
    match tag with
    | ItemTag.Normal =>
      let parentDefault : Option Int :=
        (findParentSong st2.entries node).map (fun p => p.defaultSubsong)
      let itemIsDefaultSubsong :=
        node.type == ItemType.Subsong && parentDefault == some node.defaultSubsong
      let nodeIconId :=
        if itemIsDefaultSubsong then PlaylistIconId.DefaultSubsongIndicator
        else PlaylistIconId.NoIcon
      let st3 := updateNode st2 node.id (fun n => { n with iconId := nodeIconId })
      if !(node.romRequirement == RomRequirement.None) then
        let st4 :=
          if node.type == ItemType.Song then
            updateNode st3 node.id (fun n => { n with iconId := PlaylistIconId.ChipIcon })
          else st3
        if !(IsPlayable taggedNode) then
          let col := if node.romRequirement == RomRequirement.BasicRom then "#054a80"
            else "#8a5454"
          let st5 := updateNode st4 node.id (setColourStrike col)
          { st5 with entries := st5.entries.map (fun t =>
              if t.node.id == node.id then
                { t with children := t.children.map (setColourStrike col) }
              else t) }
        else st4
      else st3
    | ItemTag.ShortDuration =>
      updateNode st2 node.id (fun n => { n with iconId := PlaylistIconId.SkipShort })
    | ItemTag.Blacklisted =>
      updateNode st2 node.id (fun n => { n with iconId := PlaylistIconId.RemoveSong })

/-- `Playlist::IsEmpty`. -/
def IsEmpty (st : PlaylistState) : Bool :=
  st.entries.isEmpty

/-- The empty playlist the control starts with (no entries, nothing active);
the preference option is external input, so it is a parameter. -/
def emptyState (pref : Bool) : PlaylistState :=
  { entries := [], activeId := none, preferDefaultSubsong := pref, nextId := 0 }

/-! ## Spec-side definitions (for refinement claims)

These follow the specification's words, to be compared with the definitions
embedded from the source. -/

/-- Effective-initial-subsong resolution as the spec words it: no subsongs -
the song itself when auto-playable else null; otherwise the preferred start
index is the default-subsong index when the prefer-default option is on, else
1; the subsong at that index when it exists and is auto-playable; else the
first auto-playable subsong in order, else null. -/
def EffectiveInitialSubsongSpec (pref : Bool) (t : SongTree) : Option Node :=
  if t.children.isEmpty then
    if IsAutoPlayable t.node then some t.node else none
  else
    let preferredIdx : Int := if pref then t.node.defaultSubsong else 1
    match GetSubsong t preferredIdx with
    | some s =>
      if IsAutoPlayable s then some s
      else t.children.find? (fun c => IsAutoPlayable c)
    | none => t.children.find? (fun c => IsAutoPlayable c)

/-- What the forward neighbor search is specified to produce for the song at
position `i`: the effective initial subsong of the first auto-playable song
after position `i`, or null when every later song is non-auto-playable or
none exists. -/
def nextSpec (st : PlaylistState) (i : Nat) : Option Node :=
  match (st.entries.drop (i + 1)).find? (fun u => IsAutoPlayable u.node) with
  | some u => GetEffectiveInitialSubsong st.preferDefaultSubsong u
  | none => none

/-- What the backward neighbor search is specified to produce for the song at
position `i`: the effective initial subsong of the nearest auto-playable song
before position `i`, or null. -/
def prevSpec (st : PlaylistState) (i : Nat) : Option Node :=
  match (st.entries.take i).reverse.find? (fun u => IsAutoPlayable u.node) with
  | some u => GetEffectiveInitialSubsong st.preferDefaultSubsong u
  | none => none

/-! ## Invariant vocabulary -/

/-- `n` is a node of the song tree `t`: its root or one of its children. -/
def memTree (n : Node) (t : SongTree) : Prop := n = t.node ∨ n ∈ t.children

/-- `n` is a node currently present in the store (what a live C++ reference
into the store points to). -/
def InStore (st : PlaylistState) (n : Node) : Prop :=
  ∃ t ∈ st.entries, memTree n t

/-- The identities carried by one song tree: the root's and the children's. -/
def idsOfTree (t : SongTree) : List Nat :=
  t.node.id :: t.children.map (fun c => c.id)

/-- The active reference, when set, resolves to a node currently present in
the store. -/
def ActiveOk (st : PlaylistState) : Prop :=
  ∀ i, st.activeId = some i → (findNodeById st.entries i).isSome = true

/-- Store identities are unique: nodes of the store with equal ids are the
same node of the same tree.  Holds for store-built states because every node
gets a fresh id. -/
def UniqueIds (st : PlaylistState) : Prop :=
  ∀ t1 ∈ st.entries, ∀ t2 ∈ st.entries, ∀ n1 n2 : Node,
    memTree n1 t1 → memTree n2 t2 → n1.id = n2.id → t1 = t2 ∧ n1 = n2

/-- Every subsong's file path equals its owning song's file path (the store
builds subsongs that way). -/
def ChildPaths (st : PlaylistState) : Prop :=
  ∀ t ∈ st.entries, ∀ c ∈ t.children, c.filepath = t.node.filepath

/-- The store-construction invariants the active-reference argument needs. -/
def WF (st : PlaylistState) : Prop := UniqueIds st ∧ ChildPaths st

/-! ## Concrete store-built states used by the claims -/

/-- Step 1 of the duplicate-path playlist: song "a", path "q", playable. -/
def cycSt0 : PlaylistState × Node :=
  AddMainSong (emptyState false) "a" "q" 1 0 "" RomRequirement.None true

/-- Step 2: song "b", path "p", not playable. -/
def cycSt1 : PlaylistState × Node :=
  AddMainSong cycSt0.1 "b" "p" 1 0 "" RomRequirement.None false

/-- Step 3: song "c", path "q" again (a permitted duplicate), not playable. -/
def cycSt2 : PlaylistState × Node :=
  AddMainSong cycSt1.1 "c" "q" 1 0 "" RomRequirement.None false

/-- A reachable playlist with duplicate file paths: songs at paths q, p, q,
the two later ones not playable. -/
def cycState : PlaylistState := cycSt2.1

/-- The middle song (path "p"), starting point of the diverging search. -/
def cycB : Node := cycSt1.2

/-- The last song (path "q", duplicating the first song's path). -/
def cycC : Node := cycSt2.2

/-- Store with one song "T" at path "p" holding one subsong. -/
def c2Parent : PlaylistState × Node :=
  AddMainSong (emptyState false) "T" "p" 1 0 "x" RomRequirement.None true

/-- The playlist for the `Remove`-a-subsong scenario. -/
def c2State : PlaylistState := AddSubsongs c2Parent.1 [100] c2Parent.2.id

/-- The single subsong of song "T", fetched from the store. -/
def c2Sub : Node :=
  (((GetSong c2State "p").map (fun t => t.children)).getD []).headD c2Parent.2

/-- Song "S" (default subsong 1) for the first effective-initial-subsong
example. -/
def ex1Parent : PlaylistState × Node :=
  AddMainSong (emptyState false) "S" "f" 1 0 "x" RomRequirement.None true

/-- Its three subsongs added. -/
def ex1WithSubs : PlaylistState := AddSubsongs ex1Parent.1 [10, 20, 30] ex1Parent.2.id

/-- Subsong 1 of the first example, fetched from the store. -/
def ex1Sub1 : Node :=
  (((GetSong ex1WithSubs "f").map (fun t => t.children)).getD []).headD ex1Parent.2

/-- First example state: subsong 1 tagged ShortDuration (so not
auto-playable), subsongs 2 and 3 auto-playable, prefer-default off. -/
def ex1State : PlaylistState := SetItemTag ex1WithSubs ex1Sub1 ItemTag.ShortDuration false

/-- Song "S" with default subsong 3 for the second example. -/
def ex2Parent : PlaylistState × Node :=
  AddMainSong (emptyState true) "S" "f" 3 0 "x" RomRequirement.None true

/-- Its three subsongs added. -/
def ex2WithSubs : PlaylistState := AddSubsongs ex2Parent.1 [10, 20, 30] ex2Parent.2.id

/-- Subsong 1 of the second example, fetched from the store. -/
def ex2Sub1 : Node :=
  (((GetSong ex2WithSubs "f").map (fun t => t.children)).getD []).headD ex2Parent.2

/-- Second example state: subsong 1 not auto-playable, default subsong 3,
prefer-default on. -/
def ex2State : PlaylistState := SetItemTag ex2WithSubs ex2Sub1 ItemTag.ShortDuration false

/-- Song A, playable, path "pa". -/
def abcSt0 : PlaylistState × Node :=
  AddMainSong (emptyState false) "A" "pa" 1 0 "" RomRequirement.None true

/-- Song B, not playable, path "pb". -/
def abcSt1 : PlaylistState × Node :=
  AddMainSong abcSt0.1 "B" "pb" 1 0 "" RomRequirement.None false

/-- Song C, playable, path "pc". -/
def abcSt2 : PlaylistState × Node :=
  AddMainSong abcSt1.1 "C" "pc" 1 0 "" RomRequirement.None true

/-- The playlist A (playable), B (not playable), C (playable), in order, with
distinct file paths. -/
def abcState : PlaylistState := abcSt2.1

/-- Song A's node. -/
def abcA : Node := abcSt0.2

/-- Song C's node. -/
def abcC : Node := abcSt2.2

/-- Two songs with differing authors. -/
def nineSt0 : PlaylistState × Node :=
  AddMainSong (emptyState false) "s1" "p1" 1 0 "auth1" RomRequirement.None true

/-- Second song, author differs. -/
def nineSt1 : PlaylistState × Node :=
  AddMainSong nineSt0.1 "s2" "p2" 1 0 "auth2" RomRequirement.None true

/-- The two-song state with differing authors. -/
def nineState : PlaylistState := nineSt1.1

/-- The differing (second) song's node. -/
def nineDiff : Node := nineSt1.2

/-- Song "P" at path "p", playable, for the active-clearing scenario. -/
def w10St0 : PlaylistState × Node :=
  AddMainSong (emptyState false) "P" "p" 1 0 "" RomRequirement.None true

/-- Two subsongs for song "P". -/
def w10St1 : PlaylistState := AddSubsongs w10St0.1 [5, 6] w10St0.2.id

/-- A second, unrelated song "Q" at path "q". -/
def w10St2 : PlaylistState × Node :=
  AddMainSong w10St1 "Q" "q" 1 0 "" RomRequirement.None true

/-- Subsong 1 of song "P", fetched from the store. -/
def w10Sub1 : Node :=
  (((GetSong w10St2.1 "p").map (fun t => t.children)).getD []).headD w10St0.2

/-- The scenario state: subsong 1 of "P" is the active entry. -/
def w10State : PlaylistState := (TrySetActiveSong w10St2.1 w10Sub1 false).2

/-- Subsong 2 of song "P" in the scenario state: same file path as the active
entry but not the active entry itself. -/
def w10Sub2 : Node :=
  ((((GetSong w10State "p").map (fun t => t.children)).getD [])[1]?).getD w10St0.2

/-- Song "Q"'s node in the scenario state (different file path). -/
def w10Other : Node :=
  ((GetSong w10State "q").map (fun t => t.node)).getD w10St0.2

/-- The active node of the scenario state, fetched via `GetActiveSong`. -/
def w10Active : Node := (GetActiveSong w10State).getD w10St0.2

end Playlist

namespace Playlist

/-! ## Helper lemmas -/

/-- On the duplicate-path playlist the forward search alternates between the
two non-auto-playable songs: from "b" it steps to "c", whose first-match path
lookup lands back on position 0, stepping to "b" again, so no fuel suffices. -/
theorem cyc_next_pair (f : Nat) :
    GetNextSong cycState f cycB = none ∧ GetNextSong cycState f cycC = none := by
  induction f with
  | zero => exact ⟨rfl, rfl⟩
  | succ f ih =>
    refine ⟨?_, ?_⟩
    · have h : GetNextSong cycState (f + 1) cycB = GetNextSong cycState f cycC := rfl
      rw [h]
      exact ih.2
    · have h : GetNextSong cycState (f + 1) cycC = GetNextSong cycState f cycB := rfl
      rw [h]
      exact ih.1

/-- Every element of the batch `buildSubsongs` creates carries the index
`cnt + j`, the derived title, the parent's filepath, ROM requirement and
playability, and the default-subsong indicator exactly when its index is the
parent's default. -/
theorem buildSubsongs_getElem (parent : Node) :
    ∀ (ds : List Nat) (cnt nid j : Nat) (c : Node),
      (buildSubsongs parent ds cnt nid)[j]? = some c →
      c.type = ItemType.Subsong ∧
      c.defaultSubsong = ((cnt + j : Nat) : Int) ∧
      c.title = subsongTitle parent.title (cnt + j) ∧
      c.filepath = parent.filepath ∧
      c.romRequirement = parent.romRequirement ∧
      c.playableFlag = IsPlayable parent ∧
      c.iconId = (if parent.defaultSubsong == ((cnt + j : Nat) : Int) then
          PlaylistIconId.DefaultSubsongIndicator else PlaylistIconId.NoIcon) := by
  intro ds
  induction ds with
  | nil =>
    intro cnt nid j c h
    simp [buildSubsongs] at h
  | cons d rest ih =>
    intro cnt nid j c h
    cases j with
    | zero =>
      simp [buildSubsongs] at h
      subst h
      simp
    | succ j =>
      simp only [buildSubsongs, List.getElem?_cons_succ] at h
      have e : cnt + (j + 1) = (cnt + 1) + j := by omega
      rw [e]
      exact ih (cnt + 1) (nid + 1) j c h

/-- One batch element per duration. -/
theorem buildSubsongs_length (parent : Node) :
    ∀ (ds : List Nat) (cnt nid : Nat),
      (buildSubsongs parent ds cnt nid).length = ds.length := by
  intro ds
  induction ds with
  | nil => intro cnt nid; rfl
  | cons d rest ih => intro cnt nid; simp [buildSubsongs, ih]

/-- With pairwise distinct song file paths the first-match lookup locates each
song at its own position. -/
theorem songIdx_of_nodup :
    ∀ (l : List SongTree), (l.map (fun t => t.node.filepath)).Nodup →
      ∀ (i : Nat) (t : SongTree), l[i]? = some t →
        songIdx l t.node.filepath = some i := by
  intro l
  induction l with
  | nil => intro _ i t h; simp at h
  | cons x xs ih =>
    intro hnd i t h
    rw [List.map_cons, List.nodup_cons] at hnd
    cases i with
    | zero =>
      rw [List.getElem?_cons_zero] at h
      injection h with h
      subst h
      simp [songIdx]
    | succ j =>
      rw [List.getElem?_cons_succ] at h
      have hmem : t ∈ xs := List.getElem?_mem h
      have hne : x.node.filepath ≠ t.node.filepath := by
        intro heq
        exact hnd.1 (heq ▸ List.mem_map_of_mem (fun u => u.node.filepath) hmem)
      have hb : (x.node.filepath == t.node.filepath) = false := by
        simp [hne]
      simp [songIdx, hb, ih hnd.2 j t h]

/-- With distinct song file paths, the forward search from the song at
position `i` terminates within the remaining forward length and produces the
effective initial subsong of the first auto-playable later song (or null). -/
theorem getNextSong_of_nodup (st : PlaylistState)
    (hnd : (st.entries.map (fun t => t.node.filepath)).Nodup) :
    ∀ (fuel i : Nat) (t : SongTree), st.entries[i]? = some t →
      st.entries.length - (i + 1) < fuel →
      GetNextSong st fuel t.node = some (nextSpec st i) := by
  intro fuel
  induction fuel with
  | zero => intro i t ht hf; omega
  | succ fuel ih =>
    intro i t ht hf
    have hidx := songIdx_of_nodup st.entries hnd i t ht
    cases hnext : st.entries[i + 1]? with
    | none =>
      have hlen : st.entries.length ≤ i + 1 := by
        by_contra hc
        push_neg at hc
        rw [List.getElem?_eq_getElem hc] at hnext
        exact Option.noConfusion hnext
      have hdrop : st.entries.drop (i + 1) = [] := List.drop_eq_nil_of_le hlen
      simp only [GetNextSong, hidx, hnext, nextSpec, hdrop, List.find?_nil]
    | some nextTree =>
      have hi1 : i + 1 < st.entries.length := (List.getElem?_eq_some.mp hnext).1
      have hdrop : st.entries.drop (i + 1) = nextTree :: st.entries.drop (i + 2) := by
        rw [List.drop_eq_getElem_cons hi1, (List.getElem?_eq_some.mp hnext).2]
      cases hap : IsAutoPlayable nextTree.node with
      | true =>
        simp only [GetNextSong, hidx, hnext, hap, if_true, nextSpec, hdrop,
          List.find?_cons, hap]
      | false =>
        have hrec : GetNextSong st (fuel + 1) t.node = GetNextSong st fuel nextTree.node := by
          simp only [GetNextSong, hidx, hnext, hap, Bool.false_eq_true, if_false]
        rw [hrec]
        have harith : st.entries.length - (i + 1 + 1) < fuel := by omega
        rw [ih (i + 1) nextTree hnext harith]
        simp only [nextSpec, hdrop, List.find?_cons, hap]

/-- With distinct song file paths, the backward search from the song at
position `i` terminates within `i` steps and produces the effective initial
subsong of the nearest auto-playable earlier song (or null). -/
theorem getPrevSong_of_nodup (st : PlaylistState)
    (hnd : (st.entries.map (fun t => t.node.filepath)).Nodup) :
    ∀ (fuel i : Nat) (t : SongTree), st.entries[i]? = some t →
      i < fuel →
      GetPrevSong st fuel t.node = some (prevSpec st i) := by
  intro fuel
  induction fuel with
  | zero => intro i t ht hf; omega
  | succ fuel ih =>
    intro i t ht hf
    have hidx := songIdx_of_nodup st.entries hnd i t ht
    cases i with
    | zero =>
      simp only [GetPrevSong, hidx, prevSpec, List.take_zero, List.reverse_nil,
        List.find?_nil]
    | succ j =>
      have hj1 : j + 1 < st.entries.length := (List.getElem?_eq_some.mp ht).1
      have hj : j < st.entries.length := by omega
      have hjget : st.entries[j]? = some st.entries[j] := List.getElem?_eq_getElem hj
      have htake : (st.entries.take (j + 1)).reverse =
          st.entries[j] :: (st.entries.take j).reverse := by
        rw [List.take_succ, hjget]
        simp
      cases hap : IsAutoPlayable st.entries[j].node with
      | true =>
        simp only [GetPrevSong, hidx, hjget, hap, if_true, prevSpec, htake,
          List.find?_cons, hap]
      | false =>
        have hrec : GetPrevSong st (fuel + 1) t.node =
            GetPrevSong st fuel st.entries[j].node := by
          simp only [GetPrevSong, hidx, hjget, hap, Bool.false_eq_true, if_false]
        rw [hrec]
        have harith : j < fuel := by omega
        rw [ih j st.entries[j] hjget harith]
        simp only [prevSpec, htake, List.find?_cons, hap]

/-- A node of a tree contributes its id to the tree's id list. -/
theorem memTree_id_mem {n : Node} {t : SongTree} (h : memTree n t) : n.id ∈ idsOfTree t := by
  unfold idsOfTree
  cases h with
  | inl h => subst h; exact List.mem_cons_self _ _
  | inr h => exact List.mem_cons_of_mem _ (List.mem_map_of_mem (fun c => c.id) h)

/-- In-tree lookup succeeds exactly for ids the tree carries. -/
theorem findNodeInTree_isSome_iff (t : SongTree) (j : Nat) :
    (findNodeInTree t j).isSome = true ↔ j ∈ idsOfTree t := by
  unfold findNodeInTree idsOfTree
  cases hb : t.node.id == j with
  | true =>
    simp only [if_true]
    simp [beq_iff_eq.mp hb]
  | false =>
    have hne : ¬ (j = t.node.id) := by
      intro h
      rw [h] at hb
      simp at hb
    simp only [Bool.false_eq_true, if_false]
    rw [List.find?_isSome]
    simp [List.mem_map, beq_iff_eq, hne]

/-- `findSome?` succeeds exactly when some element succeeds. -/
theorem findSome?_isSome_exists {α β : Type _} (f : α → Option β) (l : List α) :
    ((l.findSome? f).isSome = true) ↔ ∃ x ∈ l, (f x).isSome = true := by
  induction l with
  | nil => simp [List.findSome?_nil]
  | cons a as ih =>
    rw [List.findSome?_cons]
    cases h : f a with
    | some b => simp [h]
    | none => simp [h, ih]

/-- Store lookup succeeds exactly for ids some tree carries. -/
theorem findNodeById_isSome_iff (l : List SongTree) (j : Nat) :
    ((findNodeById l j).isSome = true) ↔ ∃ t ∈ l, j ∈ idsOfTree t := by
  unfold findNodeById
  rw [findSome?_isSome_exists]
  constructor
  · rintro ⟨t, ht, h⟩
    exact ⟨t, ht, (findNodeInTree_isSome_iff t j).mp h⟩
  · rintro ⟨t, ht, h⟩
    exact ⟨t, ht, (findNodeInTree_isSome_iff t j).mpr h⟩

/-- What a successful in-tree lookup returns: a node of that tree with the id
looked up. -/
theorem findNodeInTree_eq_some {t : SongTree} {j : Nat} {a : Node}
    (h : findNodeInTree t j = some a) : memTree a t ∧ a.id = j := by
  unfold findNodeInTree at h
  split at h
  next hb =>
    injection h with h
    subst h
    exact ⟨Or.inl rfl, beq_iff_eq.mp hb⟩
  next hb =>
    have hp := List.find?_some h
    have hm := List.mem_of_find?_eq_some h
    exact ⟨Or.inr hm, beq_iff_eq.mp hp⟩

/-- What a successful store lookup returns: a node of some stored tree with
the id looked up. -/
theorem findNodeById_eq_some {l : List SongTree} {j : Nat} {a : Node}
    (h : findNodeById l j = some a) : ∃ t ∈ l, memTree a t ∧ a.id = j := by
  unfold findNodeById at h
  induction l with
  | nil => simp [List.findSome?_nil] at h
  | cons t ts ih =>
    rw [List.findSome?_cons] at h
    cases hf : findNodeInTree t j with
    | some b =>
      rw [hf] at h
      injection h with h
      subst h
      exact ⟨t, List.mem_cons_self _ _, findNodeInTree_eq_some hf⟩
    | none =>
      rw [hf] at h
      obtain ⟨u, hu, hm⟩ := ih h
      exact ⟨u, List.mem_cons_of_mem _ hu, hm⟩

/-- `updateNode`'s per-tree transformation keeps the tree's id list whenever
the node function keeps ids. -/
theorem idsOfTree_update (i : Nat) (f : Node → Node) (hf : ∀ n, (f n).id = n.id)
    (t : SongTree) :
    idsOfTree { node := if t.node.id == i then f t.node else t.node,
                children := t.children.map (fun c => if c.id == i then f c else c) } =
      idsOfTree t := by
  unfold idsOfTree
  congr 1
  · cases h : t.node.id == i <;> simp [hf]
  · rw [List.map_map]
    apply List.map_congr_left
    intro c hc
    show (if c.id == i then f c else c).id = c.id
    split
    · exact hf c
    · rfl

/-- Mapping an id-list-preserving transformation over the store preserves
lookup success. -/
theorem presence_map (l : List SongTree) (g : SongTree → SongTree)
    (hg : ∀ t, idsOfTree (g t) = idsOfTree t) (j : Nat) :
    ((findNodeById (l.map g) j).isSome = true) ↔ ((findNodeById l j).isSome = true) := by
  rw [findNodeById_isSome_iff, findNodeById_isSome_iff]
  constructor
  · rintro ⟨t, ht, h⟩
    obtain ⟨u, hu, rfl⟩ := List.mem_map.mp ht
    exact ⟨u, hu, (hg u) ▸ h⟩
  · rintro ⟨t, ht, h⟩
    exact ⟨g t, List.mem_map_of_mem g ht, (hg t).symm ▸ h⟩

/-- `updateNode` with an id-preserving node function preserves lookup
success. -/
theorem presence_updateNode (st : PlaylistState) (i : Nat) (f : Node → Node)
    (hf : ∀ n, (f n).id = n.id) (j : Nat) :
    ((findNodeById (updateNode st i f).entries j).isSome = true) ↔
      ((findNodeById st.entries j).isSome = true) :=
  presence_map st.entries _ (idsOfTree_update i f hf) j

/-- `eraseFirstById` either removes nothing or removes exactly the first tree
whose root carries the id. -/
theorem eraseFirstById_cases (l : List SongTree) (j : Nat) :
    eraseFirstById l j = l ∨
    ∃ l1 r l2, l = l1 ++ r :: l2 ∧ r.node.id = j ∧ eraseFirstById l j = l1 ++ l2 := by
  induction l with
  | nil => left; rfl
  | cons t rest ih =>
    cases hb : t.node.id == j with
    | true =>
      right
      exact ⟨[], t, rest, rfl, beq_iff_eq.mp hb, by simp [eraseFirstById, hb]⟩
    | false =>
      cases ih with
      | inl h =>
        left
        simp [eraseFirstById, hb, h]
      | inr h =>
        obtain ⟨l1, r, l2, he, hr, her⟩ := h
        right
        refine ⟨t :: l1, r, l2, by simp [he], hr, ?_⟩
        simp [eraseFirstById, hb, her]

/-- A successful `TrySetActiveSong` stores the new node's identity as active
and leaves every node's presence in the store unchanged. -/
theorem trySetActive_result (st : PlaylistState) (node : Node) (ae : Bool)
    (hp : IsPlayable node = true) :
    (TrySetActiveSong st node ae).2.activeId = some node.id ∧
    ∀ j, ((findNodeById (TrySetActiveSong st node ae).2.entries j).isSome = true) ↔
         ((findNodeById st.entries j).isSome = true) := by
  unfold TrySetActiveSong
  rw [hp]
  simp only [Bool.not_true, Bool.false_eq_true, if_false]
  repeat' split
  all_goals refine ⟨rfl, fun j => ?_⟩
  all_goals repeat refine Iff.trans (presence_updateNode _ _ _ (by intro n; rfl) j) ?_
  all_goals exact Iff.rfl

set_option maxHeartbeats 1000000 in
/-- `SetItemTag` never touches the active reference and leaves every node's
presence in the store unchanged. -/
theorem setItemTag_result (st : PlaylistState) (node : Node) (tag : ItemTag) (force : Bool) :
    (SetItemTag st node tag force).activeId = st.activeId ∧
    ∀ j, ((findNodeById (SetItemTag st node tag force).entries j).isSome = true) ↔
         ((findNodeById st.entries j).isSome = true) := by
  cases tag <;> cases force <;>
    (unfold SetItemTag; dsimp only []; repeat' ((try dsimp only []); split)) <;>
    refine ⟨rfl, fun j => ?_⟩ <;>
    (repeat
      first
        | refine Iff.trans (presence_updateNode _ _ _ (by intro n; rfl) j) ?_
        | refine Iff.trans
            (presence_map _ _
              (by
                intro t
                show idsOfTree _ = idsOfTree t
                split
                · unfold idsOfTree
                  rw [List.map_map]
                  rfl
                · rfl) j) ?_) <;>
    exact Iff.rfl

/-- A node present in the store is found by its id. -/
theorem inStore_presence (st : PlaylistState) (n : Node) (h : InStore st n) :
    (findNodeById st.entries n.id).isSome = true := by
  obtain ⟨t, ht, hm⟩ := h
  exact (findNodeById_isSome_iff st.entries n.id).mpr ⟨t, ht, memTree_id_mem hm⟩

/-- `Remove` of a store node keeps the active reference resolvable: the
reference survives only when the removed item's filepath differs from the
active node's, and then the active node's tree is not the erased one. -/
theorem remove_activeOk (st : PlaylistState) (item : Node)
    (hwf : WF st) (hin : InStore st item) (hao : ActiveOk st) :
    ActiveOk (Remove st item) := by
  intro i hi
  unfold Remove at hi ⊢
  cases hga : GetActiveSong st with
  | none =>
    simp only [hga] at hi ⊢
    have hsome := hao i hi
    have hg : GetActiveSong st = findNodeById st.entries i := by
      unfold GetActiveSong
      rw [hi]
    rw [hg] at hga
    rw [hga] at hsome
    simp at hsome
  | some a =>
    cases hbeq : a.filepath == item.filepath with
    | true =>
      simp only [hga, hbeq, if_true] at hi
      simp at hi
    | false =>
      simp only [hga, hbeq, Bool.false_eq_true, if_false] at hi ⊢
      have hfind : findNodeById st.entries i = some a := by
        have hg : GetActiveSong st = findNodeById st.entries i := by
          unfold GetActiveSong
          rw [hi]
        rw [hg] at hga
        exact hga
      have hnep : a.filepath ≠ item.filepath := by
        intro h
        rw [h] at hbeq
        simp at hbeq
      obtain ⟨ta, hta, hmem, haid⟩ := findNodeById_eq_some hfind
      rcases eraseFirstById_cases st.entries item.id with he | ⟨l1, r, l2, hl, hrid, he⟩
      · rw [he]
        exact (findNodeById_isSome_iff _ _).mpr ⟨ta, hta, haid ▸ memTree_id_mem hmem⟩
      · have hrmem : r ∈ st.entries := by
          rw [hl]
          exact List.mem_append_right _ (List.mem_cons_self _ _)
        obtain ⟨ti, hti, hmi⟩ := hin
        have huniq := hwf.1 r hrmem ti hti r.node item (Or.inl rfl) hmi hrid
        have hritem : r.node = item := huniq.2
        have hne : ta ≠ r := by
          intro hEq
          subst hEq
          cases hmem with
          | inl h =>
            exact hnep (by rw [h, hritem])
          | inr h =>
            have hcp := hwf.2 ta hta a h
            rw [hritem] at hcp
            exact hnep hcp
        have htain : ta ∈ l1 ++ l2 := by
          have hta2 : ta ∈ l1 ++ r :: l2 := hl ▸ hta
          rcases List.mem_append.mp hta2 with h | h
          · exact List.mem_append_left _ h
          · rcases List.mem_cons.mp h with h | h
            · exact absurd h hne
            · exact List.mem_append_right _ h
        rw [he]
        exact (findNodeById_isSome_iff _ _).mpr ⟨ta, htain, haid ▸ memTree_id_mem hmem⟩

/-- Removing the node the active reference resolves to clears the
reference. -/
theorem remove_active_none (st : PlaylistState) (a : Node)
    (h : GetActiveSong st = some a) : GetActiveSong (Remove st a) = none := by
  have hact : (Remove st a).activeId = none := by
    unfold Remove
    simp only [h, beq_self_eq_true, if_true]
  unfold GetActiveSong
  rw [hact]

/-- `Clear` unsets the active reference; the cleared state trivially satisfies
the invariant. -/
theorem clear_active_none (st : PlaylistState) :
    GetActiveSong (Clear st) = none ∧ ActiveOk (Clear st) :=
  ⟨rfl, fun i hi => by simp [Clear] at hi⟩

/-- Appending a fresh song keeps the active reference resolvable. -/
theorem addMainSong_activeOk (st : PlaylistState) (title fp : String) (ds : Int)
    (dur : Nat) (au : String) (rom : RomRequirement) (pl : Bool) (hao : ActiveOk st) :
    ActiveOk (AddMainSong st title fp ds dur au rom pl).1 := by
  intro i hi
  have hi' : st.activeId = some i := hi
  obtain ⟨t, ht, hmem⟩ := (findNodeById_isSome_iff _ _).mp (hao i hi')
  exact (findNodeById_isSome_iff _ _).mpr ⟨t, List.mem_append_left _ ht, hmem⟩

/-- Appending subsongs keeps the active reference resolvable. -/
theorem addSubsongs_activeOk (st : PlaylistState) (ds : List Nat) (pid : Nat)
    (hao : ActiveOk st) : ActiveOk (AddSubsongs st ds pid) := by
  intro i hi
  unfold AddSubsongs at hi ⊢
  cases hlen : ds.length == 0 with
  | true =>
    rw [hlen] at hi
    rw [if_pos rfl] at hi ⊢
    exact hao i hi
  | false =>
    rw [hlen] at hi
    rw [if_neg (by simp)] at hi ⊢
    have hi' : st.activeId = some i := hi
    obtain ⟨t, ht, hmem⟩ := (findNodeById_isSome_iff _ _).mp (hao i hi')
    refine (findNodeById_isSome_iff _ _).mpr ⟨_, List.mem_map_of_mem _ ht, ?_⟩
    by_cases hb : (t.node.id == pid) = true
    · rw [if_pos hb]
      unfold idsOfTree at hmem ⊢
      rcases List.mem_cons.mp hmem with h | h
      · exact h ▸ List.mem_cons_self _ _
      · refine List.mem_cons_of_mem _ ?_
        rw [List.map_append]
        exact List.mem_append_left _ h
    · rw [if_neg hb]
      exact hmem

/-- `TrySetActiveSong` on a store node keeps the active reference
resolvable. -/
theorem trySetActive_activeOk (st : PlaylistState) (node : Node) (ae : Bool)
    (hin : InStore st node) (hao : ActiveOk st) :
    ActiveOk (TrySetActiveSong st node ae).2 := by
  cases hp : IsPlayable node with
  | false =>
    have hres : TrySetActiveSong st node ae = (false, st) := by
      unfold TrySetActiveSong
      rw [hp]
      simp
    rw [hres]
    exact hao
  | true =>
    obtain ⟨hact, hpres⟩ := trySetActive_result st node ae hp
    intro i hi
    rw [hact] at hi
    injection hi with hi
    subst hi
    exact (hpres node.id).mpr (inStore_presence st node hin)

/-- `SetItemTag` keeps the active reference resolvable. -/
theorem setItemTag_activeOk (st : PlaylistState) (node : Node) (tag : ItemTag)
    (force : Bool) (hao : ActiveOk st) : ActiveOk (SetItemTag st node tag force) := by
  obtain ⟨hact, hpres⟩ := setItemTag_result st node tag force
  intro i hi
  rw [hact] at hi
  exact (hpres i).mpr (hao i hi)

/-! ## Claim theorems -/

/-- C1: the claim says GetNextSong and GetPrevSong terminate from every store
entry in every reachable state, duplicates included, within the remaining
length.  The code violates it: on the reachable three-song playlist
`cycState` (paths "q", "p", "q", the latter two songs not playable), the
forward search from the middle song never returns - the first-match filepath
lookup sends the recursion from position 2 back to position 0's successor and
it alternates forever, so no recursion depth whatsoever produces a result (in
particular not the remaining list length). -/
theorem C1_next_song_never_terminates :
    ∀ fuel : Nat, GetNextSong cycState fuel cycB = none :=
  fun fuel => (cyc_next_pair fuel).1

/-- C2: the claim says Remove on a subsong removes it from its owning song's
child collection.  The code violates it: `Playlist::Remove` searches only the
root `_model.entries` list for the item, so removing the one subsong of song
"T" changes nothing - the state is identical and the parent still holds
exactly that subsong. -/
theorem C2_remove_subsong_is_noop :
    c2Sub.type = ItemType.Subsong ∧
    Remove c2State c2Sub = c2State ∧
    ((GetSong (Remove c2State c2Sub) "p").map (fun t => t.children)).getD [] = [c2Sub] :=
  ⟨by decide, by decide, by decide⟩

/-- C3: effective-initial-subsong resolution equals the specified rule (no
subsongs: the song itself when auto-playable, else null; otherwise the
preferred-index subsong when present and auto-playable, else the first
auto-playable subsong, else null), and the two quoted examples hold: with
prefer-default off and subsong 1 not auto-playable it returns subsong 2, and
with prefer-default on and default 3 it returns subsong 3. -/
theorem C3_effective_initial_subsong :
    (∀ (pref : Bool) (t : SongTree),
        GetEffectiveInitialSubsong pref t = EffectiveInitialSubsongSpec pref t) ∧
    ((GetSong ex1State "f").bind (fun t => GetEffectiveInitialSubsong false t)).map
        (fun n => n.defaultSubsong) = some 2 ∧
    ((GetSong ex2State "f").bind (fun t => GetEffectiveInitialSubsong true t)).map
        (fun n => n.defaultSubsong) = some 3 := by
  refine ⟨?_, by decide, by decide⟩
  intro pref t
  obtain ⟨node, children⟩ := t
  cases children with
  | nil => simp [GetEffectiveInitialSubsong, EffectiveInitialSubsongSpec]
  | cons c cs =>
    simp [GetEffectiveInitialSubsong, EffectiveInitialSubsongSpec, firstAutoPlayableChild]

/-- C4 (amended: provided the songs' file paths are pairwise distinct): the
forward search from the song at position i returns the effective initial
subsong of the first auto-playable later song, null at the boundary, within
the remaining length of fuel; symmetrically backward; and in the concrete
A (playable), B (not playable), C (playable) playlist, GetNextSong from A
skips B and returns C's effective initial subsong (C itself, having no
subsongs) and GetPrevSong from C returns A's. -/
theorem C4_neighbor_search_skips :
    (∀ (st : PlaylistState) (fuel i : Nat) (t : SongTree),
        (st.entries.map (fun u => u.node.filepath)).Nodup →
        st.entries[i]? = some t → st.entries.length - (i + 1) < fuel →
        GetNextSong st fuel t.node = some (nextSpec st i)) ∧
    (∀ (st : PlaylistState) (fuel i : Nat) (t : SongTree),
        (st.entries.map (fun u => u.node.filepath)).Nodup →
        st.entries[i]? = some t → i < fuel →
        GetPrevSong st fuel t.node = some (prevSpec st i)) ∧
    GetNextSong abcState 3 abcA = some (some abcC) ∧
    GetPrevSong abcState 3 abcC = some (some abcA) ∧
    (GetSong abcState "pc").map
        (fun t => GetEffectiveInitialSubsong abcState.preferDefaultSubsong t) =
      some (some abcC) ∧
    (GetSong abcState "pa").map
        (fun t => GetEffectiveInitialSubsong abcState.preferDefaultSubsong t) =
      some (some abcA) :=
  ⟨fun st fuel i t hnd ht hf => getNextSong_of_nodup st hnd fuel i t ht hf,
   fun st fuel i t hnd ht hf => getPrevSong_of_nodup st hnd fuel i t ht hf,
   by decide, by decide, by decide, by decide⟩

/-- C4's counterexample to the unrestricted claim: on the duplicate-path
playlist `cycState` the claim predicts null for the forward search from the
middle song (everything after it is non-auto-playable), but the recursion is
still running after 1000 unfoldings - far beyond the three-entry list. -/
theorem C4_counterexample_duplicate_paths :
    cycState.entries.length = 3 ∧ GetNextSong cycState 1000 cycB = none :=
  ⟨rfl, (cyc_next_pair 1000).1⟩

/-- C5: TrySetActiveSong on a non-playable entry returns false and leaves the
whole state (active reference, every tag, every visual payload) exactly as it
was. -/
theorem C5_try_set_active_unplayable_noop :
    ∀ (st : PlaylistState) (e : Node) (autoexpand : Bool),
      IsPlayable e = false → TrySetActiveSong st e autoexpand = (false, st) := by
  intro st e ae h
  unfold TrySetActiveSong
  rw [h]
  simp

/-- C5's hypothesis discharged at a concrete input: the unplayable song "c" of
`cycState`. -/
theorem C5_witness :
    TrySetActiveSong cycState cycC false = (false, cycState) :=
  C5_try_set_active_unplayable_noop cycState cycC false (by decide)

/-- C6: the active reference always resolves to a present entry and is
cleared when its entry goes away: Remove of the resolved active node nulls
GetActiveSong; Clear nulls it; and Remove (of any store node, under the
store-construction invariants), Clear, AddMainSong, AddSubsongs,
TrySetActiveSong and SetItemTag all preserve resolvability.  At most one
entry is active by construction: the model keeps a single optional
reference. -/
theorem C6_active_reference_invariant :
    (∀ (st : PlaylistState) (a : Node), GetActiveSong st = some a →
        GetActiveSong (Remove st a) = none) ∧
    (∀ st : PlaylistState, GetActiveSong (Clear st) = none) ∧
    (∀ st : PlaylistState, ActiveOk (Clear st)) ∧
    (∀ (st : PlaylistState) (item : Node), WF st → InStore st item → ActiveOk st →
        ActiveOk (Remove st item)) ∧
    (∀ (st : PlaylistState) (title fp : String) (ds : Int) (dur : Nat) (au : String)
        (rom : RomRequirement) (pl : Bool), ActiveOk st →
        ActiveOk (AddMainSong st title fp ds dur au rom pl).1) ∧
    (∀ (st : PlaylistState) (ds : List Nat) (pid : Nat), ActiveOk st →
        ActiveOk (AddSubsongs st ds pid)) ∧
    (∀ (st : PlaylistState) (node : Node) (ae : Bool), InStore st node → ActiveOk st →
        ActiveOk (TrySetActiveSong st node ae).2) ∧
    (∀ (st : PlaylistState) (node : Node) (tag : ItemTag) (force : Bool), ActiveOk st →
        ActiveOk (SetItemTag st node tag force)) :=
  ⟨remove_active_none, fun st => (clear_active_none st).1, fun st => (clear_active_none st).2,
   remove_activeOk, addMainSong_activeOk, addSubsongs_activeOk, trySetActive_activeOk,
   setItemTag_activeOk⟩

/-- C7's counterexample to the exact title claim: the subsong created for
parent "T" is titled with two leading indentation spaces (the source formats
"  %s: %s %i"), so its title is not "T: Subsong 1". -/
theorem C7_title_counterexample :
    ((GetSong c2State "p").bind (fun t => t.children.head?)).map (fun c => c.title) =
      some "  T: Subsong 1" ∧
    ((GetSong c2State "p").bind (fun t => t.children.head?)).map (fun c => c.title) ≠
      some "T: Subsong 1" :=
  ⟨by decide, by decide⟩

/-- C7 (amended: titles carry two leading indentation spaces, and the
inherited playability is the parent's derived IsPlayable): AddSubsongs on an
empty sequence is a no-op; otherwise exactly one subsong per element is
appended to the parent's children, the j-th created subsong has index j+1
(contiguous 1..N), title `subsongTitle parent.title (j+1)`, the parent's
filepath and ROM requirement, playable flag equal to the parent's
IsPlayable(), and the default-subsong indicator icon exactly when its index
equals the parent's default-subsong index. -/
theorem C7_add_subsongs_batch :
    (∀ (st : PlaylistState) (pid : Nat), AddSubsongs st [] pid = st) ∧
    (∀ (parent : Node) (ds : List Nat) (cnt nid : Nat),
        (buildSubsongs parent ds cnt nid).length = ds.length) ∧
    (∀ (st : PlaylistState) (ds : List Nat) (pid k : Nat) (t : SongTree),
        ds ≠ [] → st.entries[k]? = some t → t.node.id = pid →
        (AddSubsongs st ds pid).entries[k]? =
          some { t with children := t.children ++ buildSubsongs t.node ds 1 st.nextId }) ∧
    (∀ (parent : Node) (ds : List Nat) (nid j : Nat) (c : Node),
        (buildSubsongs parent ds 1 nid)[j]? = some c →
        c.type = ItemType.Subsong ∧
        c.defaultSubsong = ((j + 1 : Nat) : Int) ∧
        c.title = subsongTitle parent.title (j + 1) ∧
        c.filepath = parent.filepath ∧
        c.romRequirement = parent.romRequirement ∧
        c.playableFlag = IsPlayable parent ∧
        c.iconId = (if parent.defaultSubsong == ((j + 1 : Nat) : Int) then
            PlaylistIconId.DefaultSubsongIndicator else PlaylistIconId.NoIcon)) := by
  refine ⟨fun st pid => rfl, buildSubsongs_length, ?_, ?_⟩
  · intro st ds pid k t hne hk hid
    have hlen : (ds.length == 0) = false := by
      simp [List.length_eq_zero]
      exact hne
    simp only [AddSubsongs, hlen, Bool.false_eq_true, if_false, List.getElem?_map, hk,
      Option.map_some]
    simp [hid]
  · intro parent ds nid j c h
    have e : j + 1 = 1 + j := by omega
    rw [e]
    exact buildSubsongs_getElem parent ds 1 nid j c h

/-- C8: SetItemTag without force on a non-playable entry is a complete no-op:
the state is returned untouched (tag, icon and visual payload of every entry
included). -/
theorem C8_set_tag_unplayable_noop :
    ∀ (st : PlaylistState) (e : Node) (t : ItemTag),
      IsPlayable e = false → SetItemTag st e t false = st := by
  intro st e t h
  unfold SetItemTag
  rw [h]
  simp

/-- C8's hypothesis discharged at a concrete input: Blacklisted applied
without force to the already-unplayable song "c" of `cycState`. -/
theorem C8_witness :
    SetItemTag cycState cycC ItemTag.Blacklisted false = cycState :=
  C8_set_tag_unplayable_noop cycState cycC ItemTag.Blacklisted (by decide)

/-- C9: the author-column-hide predicate is a pure function of the song list,
true for the empty and singleton lists, true for a non-empty list exactly when
every song's author equals the first song's author; on the concrete two-song
state with differing authors it is false, and recomputing it after removing
the differing song yields true again. -/
theorem C9_author_column_hide :
    RefreshAuthorColumnVisibility [] = true ∧
    (∀ e : SongTree, RefreshAuthorColumnVisibility [e] = true) ∧
    (∀ (e : SongTree) (rest : List SongTree),
        (RefreshAuthorColumnVisibility (e :: rest) = true ↔
          ∀ t ∈ rest, t.node.author = e.node.author)) ∧
    RefreshAuthorColumnVisibility nineState.entries = false ∧
    RefreshAuthorColumnVisibility (Remove nineState nineDiff).entries = true := by
  refine ⟨rfl, fun e => rfl, ?_, by decide, by decide⟩
  intro e rest
  cases rest with
  | nil => simp [RefreshAuthorColumnVisibility]
  | cons r rs =>
    simp [RefreshAuthorColumnVisibility, List.all_eq_true]

/-- C10: Remove clears the active reference exactly on filepath match: when
an active node exists and shares the removed item's filepath (even if it is a
different entry), GetActiveSong is null afterwards; with a different filepath
the active reference is untouched. -/
theorem C10_remove_clears_on_filepath_match :
    ∀ (st : PlaylistState) (item a : Node), GetActiveSong st = some a →
      (a.filepath = item.filepath → GetActiveSong (Remove st item) = none) ∧
      (a.filepath ≠ item.filepath → (Remove st item).activeId = st.activeId) := by
  intro st item a h
  constructor
  · intro heq
    simp only [Remove, h, heq, beq_self_eq_true]
    simp [GetActiveSong]
  · intro hne
    have hb : (a.filepath == item.filepath) = false := by
      simp [hne]
    simp only [Remove, h, hb]
    simp

/-- C10's hypotheses discharged at concrete inputs: in `w10State` subsong 1 of
song "P" is active; removing its sibling subsong 2 (same filepath, different
entry) nulls the active song, while removing song "Q" (different filepath)
leaves the reference untouched. -/
theorem C10_witness :
    GetActiveSong (Remove w10State w10Sub2) = none ∧
    (Remove w10State w10Other).activeId = w10State.activeId :=
  ⟨(C10_remove_clears_on_filepath_match w10State w10Sub2 w10Active (by decide)).1 (by decide),
   (C10_remove_clears_on_filepath_match w10State w10Other w10Active (by decide)).2 (by decide)⟩

end Playlist
